import Mathlib

/-!
Verification of the backtesting platform core.

This file shallowly embeds the quantitative core of the backtesting
repository — the backtest engine, the performance-metrics calculator, the
SMA/EMA indicators, the grid-search combination enumerator, the
walk-forward window generator and the Monte Carlo trade shuffler — and
proves or refutes the frozen specification claims about them.

Modelling conventions:
* JavaScript numbers are modelled as exact rationals.  Indicator outputs
  that can be NaN in the source are modelled as Option values, with none
  standing for the NaN sentinel.
* Nullable and optional numeric fields (number or null, optional object
  fields) are Option values; JavaScript truthiness of such a field holds
  exactly when the value is present and nonzero (truthyOpt below).
* Division in the rationals is total with x / 0 = 0; source expressions
  that would divide by zero in JavaScript (producing NaN or Infinity) are
  only relied on under hypotheses that rule the zero denominator out.
* Math.random is modelled by an explicit oracle of natural numbers; each
  call site reduces the oracle value into the range the source draws from.
* Metric fields whose source computation needs real exponentiation or
  square roots (cagr, sharpeRatio, sortinoRatio, calmarRatio, and the
  per-simulation Monte Carlo sharpeRatio) are not representable over the
  rationals and are omitted; no claim in scope mentions them.
-/

namespace BT

/-- One OHLCV bar.  The field opn is the source's open price field
(open is a Lean keyword). -/
structure Candle where
  timestamp : ℚ
  opn : ℚ
  high : ℚ
  low : ℚ
  close : ℚ
  volume : Option ℚ := none
deriving DecidableEq

/-- Trade direction, long or short. -/
inductive TradeDirection where
  | long
  | short
deriving DecidableEq

/-- An open position, owned by the engine during a run. -/
structure Position where
  id : String
  direction : TradeDirection
  entryTime : ℚ
  entryPrice : ℚ
  size : ℚ
  stopLoss : Option ℚ := none
  takeProfit : Option ℚ := none
deriving DecidableEq

/-- A trade record; the source's Trade interface.  It has no field for a
closing reason. -/
structure Trade where
  id : String
  entryTime : ℚ
  exitTime : Option ℚ
  entryPrice : ℚ
  exitPrice : Option ℚ
  direction : TradeDirection
  size : ℚ
  pnl : Option ℚ
  pnlPercent : Option ℚ
  stopLoss : Option ℚ := none
  takeProfit : Option ℚ := none
  commission : ℚ
deriving DecidableEq

/-- Signal kinds a strategy can emit. -/
inductive SignalType where
  | buy
  | sell
  | close
deriving DecidableEq

/-- A strategy signal. -/
structure Signal where
  type : SignalType
  price : Option ℚ := none
  size : Option ℚ := none
  stopLoss : Option ℚ := none
  takeProfit : Option ℚ := none
  reason : Option String := none
deriving DecidableEq

/-- Backtest configuration. -/
structure BacktestConfig where
  initialCapital : ℚ
  commission : ℚ
  slippage : ℚ
  leverage : ℚ
  maxPositionSize : ℚ
deriving DecidableEq

/-- One equity-curve sample. -/
structure EquityPoint where
  timestamp : ℚ
  equity : ℚ
deriving DecidableEq

/-- Strategy parameter assignments as name-value pairs; lookup takes the
first binding, so earlier bindings shadow later ones. -/
abbrev Params := List (String × ℚ)

/-- The strategy contract as the engine consumes it: a name, parameters and
deterministic per-candle logic receiving the index, the history up to and
including the current candle, and the open position if any.  The stateful
init and onComplete hooks never influence the engine state and are omitted
from the embedding. -/
structure Strategy where
  name : String
  params : Params
  onCandle : ℕ → List Candle → Option Position → Option Signal

/-- JavaScript truthiness of an optional numeric field: present and
nonzero. -/
def truthyOpt (o : Option ℚ) : Bool :=
  match o with
  | some x => decide (x ≠ 0)
  | none => false

/-- The mutable per-run engine state threaded through the candle loop. -/
structure EngineState where
  position : Option Position
  trades : List Trade
  equity : ℚ
  equityCurve : List EquityPoint
  tradeIdCounter : ℕ
deriving DecidableEq

/-- The trade record closePosition creates.  The reason argument of
closePosition does not appear here because the source never reads it. -/
def mkCloseTrade (cfg : BacktestConfig) (pos : Position) (exitPrice exitTime : ℚ) : Trade :=
  let slippage := cfg.slippage * (1 / 100)
  let adjustedExitPrice :=
    if pos.direction = .long then exitPrice - slippage else exitPrice + slippage
  let priceDiff :=
    if pos.direction = .long then adjustedExitPrice - pos.entryPrice
    else pos.entryPrice - adjustedExitPrice
  let grossPnl := priceDiff * (pos.size / pos.entryPrice)
  let commission := pos.size * cfg.commission * 2
  let netPnl := grossPnl - commission
  { id := pos.id
    entryTime := pos.entryTime
    exitTime := some exitTime
    entryPrice := pos.entryPrice
    exitPrice := some adjustedExitPrice
    direction := pos.direction
    size := pos.size
    pnl := some netPnl
    pnlPercent := some (netPnl / cfg.initialCapital * 100)
    stopLoss := pos.stopLoss
    takeProfit := pos.takeProfit
    commission := commission }

/-- Close the current position: record the trade, realize the pnl into
equity, clear the position.  The reason argument is accepted and, as in the
source, discarded. -/
def closePosition (cfg : BacktestConfig) (st : EngineState)
    (exitPrice exitTime : ℚ) (_reason : String) : EngineState :=
  match st.position with
  | none => st
  | some pos =>
    let tr := mkCloseTrade cfg pos exitPrice exitTime
    { st with
      trades := st.trades ++ [tr]
      equity := st.equity + tr.pnl.getD 0
      position := none }

/-- Open a new position at the candle close adjusted by slippage; the size
is the signal size capped by equity times maxPositionSize times leverage,
or that full cap when the signal size is absent or falsy. -/
def openPosition (cfg : BacktestConfig) (st : EngineState)
    (direction : TradeDirection) (candle : Candle) (signal : Signal) : EngineState :=
  let maxSize := st.equity * cfg.maxPositionSize * cfg.leverage
  let size := if truthyOpt signal.size then min (signal.size.getD 0) maxSize else maxSize
  let slippage := cfg.slippage * (1 / 100)
  let entryPrice :=
    if direction = .long then candle.close + slippage else candle.close - slippage
  { st with
    tradeIdCounter := st.tradeIdCounter + 1
    position := some
      { id := "pos-" ++ toString (st.tradeIdCounter + 1)
        direction := direction
        entryTime := candle.timestamp
        entryPrice := entryPrice
        size := size
        stopLoss := signal.stopLoss
        takeProfit := signal.takeProfit } }

/-- Default reason for a close signal: the source's falsy-string fallback. -/
def signalCloseReason (r : Option String) : String :=
  match r with
  | some s => if s = "" then "Signal close" else s
  | none => "Signal close"

/-- Execute a strategy signal: buy and sell first close an opposing
position (reversal) and then open when flat; close closes any open
position at the candle close. -/
def executeSignal (cfg : BacktestConfig) (st : EngineState)
    (signal : Signal) (candle : Candle) : EngineState :=
  match signal.type with
  | .buy =>
    let st1 :=
      if st.position.map Position.direction = some .short then
        closePosition cfg st candle.close candle.timestamp "Reverse to long"
      else st
    if st1.position = none then openPosition cfg st1 .long candle signal else st1
  | .sell =>
    let st1 :=
      if st.position.map Position.direction = some .long then
        closePosition cfg st candle.close candle.timestamp "Reverse to short"
      else st
    if st1.position = none then openPosition cfg st1 .short candle signal else st1
  | .close =>
    if st.position.isSome then
      closePosition cfg st candle.close candle.timestamp (signalCloseReason signal.reason)
    else st

/-- Intrabar exit check: stop loss first, then take profit, each guarded by
truthiness of the level, tested against the candle high and low and closed
at the level itself. -/
def checkExitConditions (cfg : BacktestConfig) (st : EngineState) (candle : Candle) :
    EngineState :=
  match st.position with
  | none => st
  | some pos =>
    if pos.direction = .long then
      if truthyOpt pos.stopLoss && decide (candle.low ≤ pos.stopLoss.getD 0) then
        closePosition cfg st (pos.stopLoss.getD 0) candle.timestamp "Stop loss hit"
      else if truthyOpt pos.takeProfit && decide (candle.high ≥ pos.takeProfit.getD 0) then
        closePosition cfg st (pos.takeProfit.getD 0) candle.timestamp "Take profit hit"
      else st
    else
      if truthyOpt pos.stopLoss && decide (candle.high ≥ pos.stopLoss.getD 0) then
        closePosition cfg st (pos.stopLoss.getD 0) candle.timestamp "Stop loss hit"
      else if truthyOpt pos.takeProfit && decide (candle.low ≤ pos.takeProfit.getD 0) then
        closePosition cfg st (pos.takeProfit.getD 0) candle.timestamp "Take profit hit"
      else st

/-- Unrealized pnl of an open position valued at a close price. -/
def unrealizedPnl (pos : Position) (closePrice : ℚ) : ℚ :=
  let priceDiff :=
    if pos.direction = .long then closePrice - pos.entryPrice
    else pos.entryPrice - closePrice
  priceDiff * (pos.size / pos.entryPrice)

/-- Append the equity-curve point for the current candle: realized equity
plus unrealized pnl of any open position at the candle close. -/
def updateEquityCurve (st : EngineState) (candle : Candle) : EngineState :=
  let currentEquity := st.equity +
    (match st.position with
     | some pos => unrealizedPnl pos candle.close
     | none => 0)
  { st with
    equityCurve := st.equityCurve ++ [{ timestamp := candle.timestamp, equity := currentEquity }] }

/-- One iteration of the engine's candle loop: exit check, then the
strategy signal on the history up to the current index, then the
equity-curve append. -/
def stepCandle (cfg : BacktestConfig) (strat : Strategy) (candles : List Candle)
    (st : EngineState) (ic : ℕ × Candle) : EngineState :=
  let st1 := checkExitConditions cfg st ic.2
  let st2 :=
    match strat.onCandle ic.1 (candles.take (ic.1 + 1)) st1.position with
    | some signal => executeSignal cfg st1 signal ic.2
    | none => st1
  updateEquityCurve st2 ic.2

/-- Realized pnl of a trade with the source's null coalescing to 0. -/
def pnlD (t : Trade) : ℚ := t.pnl.getD 0

/-- Sum of realized pnl over a trade list. -/
def sumPnl (ts : List Trade) : ℚ := (ts.map pnlD).sum

/-- Trades with a realized (non-null) pnl; the source's completedTrades. -/
def completedOf (ts : List Trade) : List Trade := ts.filter (fun t => t.pnl.isSome)

/-- Completed trades with strictly positive pnl. -/
def winningOf (ts : List Trade) : List Trade :=
  (completedOf ts).filter (fun t => decide (0 < pnlD t))

/-- Completed trades with strictly negative pnl. -/
def losingOf (ts : List Trade) : List Trade :=
  (completedOf ts).filter (fun t => decide (pnlD t < 0))

/-- Summed winning pnl. -/
def totalWins (ts : List Trade) : ℚ := ((winningOf ts).map pnlD).sum

/-- Absolute value of the summed losing pnl. -/
def totalLosses (ts : List Trade) : ℚ := |((losingOf ts).map pnlD).sum|

/-- Profit factor; none stands for the source's Infinity. -/
def profitFactorOf (ts : List Trade) : Option ℚ :=
  if 0 < totalLosses ts then some (totalWins ts / totalLosses ts)
  else if 0 < totalWins ts then none
  else some 0

/-- The rational-valued subset of PerformanceMetrics; profitFactor uses
none for Infinity.  The cagr, sharpeRatio, sortinoRatio and calmarRatio
fields need real exponentiation and are omitted (see the file header). -/
structure MetricsCore where
  totalReturn : ℚ
  totalReturnPercent : ℚ
  maxDrawdown : ℚ
  maxDrawdownPercent : ℚ
  winRate : ℚ
  profitFactor : Option ℚ
  totalTrades : ℕ
  winningTrades : ℕ
  losingTrades : ℕ
  averageWin : ℚ
  averageLoss : ℚ
  averageTradeDuration : ℚ
  largestWin : ℚ
  largestLoss : ℚ
  consecutiveWins : ℕ
  consecutiveLosses : ℕ
  expectancy : ℚ
deriving DecidableEq

/-- The all-zero metrics returned when there is no completed trade. -/
def emptyMetrics : MetricsCore :=
  { totalReturn := 0, totalReturnPercent := 0, maxDrawdown := 0, maxDrawdownPercent := 0
    winRate := 0, profitFactor := some 0, totalTrades := 0, winningTrades := 0
    losingTrades := 0, averageWin := 0, averageLoss := 0, averageTradeDuration := 0
    largestWin := 0, largestLoss := 0, consecutiveWins := 0, consecutiveLosses := 0
    expectancy := 0 }

/-- Final equity as the metrics calculator reads it: the last equity-curve
point, or the initial capital when the curve is empty. -/
def finalEquityOf (equityCurve : List EquityPoint) (initialCapital : ℚ) : ℚ :=
  match equityCurve.getLast? with
  | some p => p.equity
  | none => initialCapital

/-- Accumulator for the consecutive win and loss streak scan. -/
structure ConsAcc where
  maxW : ℕ
  maxL : ℕ
  curW : ℕ
  curL : ℕ
deriving DecidableEq

/-- Longest consecutive win and loss streaks over a trade list. -/
def consecutiveOf (ts : List Trade) : ℕ × ℕ :=
  let r := ts.foldl
    (fun acc t =>
      if 0 < pnlD t then
        { maxW := max acc.maxW (acc.curW + 1), maxL := acc.maxL
          curW := acc.curW + 1, curL := 0 }
      else if pnlD t < 0 then
        { maxW := acc.maxW, maxL := max acc.maxL (acc.curL + 1)
          curW := 0, curL := acc.curL + 1 }
      else acc)
    ({ maxW := 0, maxL := 0, curW := 0, curL := 0 } : ConsAcc)
  (r.maxW, r.maxL)

/-- Accumulator for the drawdown scan. -/
structure DrawAcc where
  peak : ℚ
  maxDrawdown : ℚ
  maxDrawdownPercent : ℚ
deriving DecidableEq

/-- Maximum drawdown in currency and percent from the running equity peak. -/
def drawdownOf (equityCurve : List EquityPoint) (initialCapital : ℚ) : ℚ × ℚ :=
  let r := equityCurve.foldl
    (fun acc p =>
      let peak := max acc.peak p.equity
      let drawdown := peak - p.equity
      if acc.maxDrawdown < drawdown then
        { peak := peak, maxDrawdown := drawdown, maxDrawdownPercent := drawdown / peak * 100 }
      else
        { peak := peak, maxDrawdown := acc.maxDrawdown
          maxDrawdownPercent := acc.maxDrawdownPercent })
    ({ peak := initialCapital, maxDrawdown := 0, maxDrawdownPercent := 0 } : DrawAcc)
  (r.maxDrawdown, r.maxDrawdownPercent)

/-- The rational-valued part of calculateMetrics, translated from the
source; the all-zero struct is returned when no trade has realized pnl. -/
def calculateMetricsCore (trades : List Trade) (equityCurve : List EquityPoint)
    (initialCapital _startDate _endDate : ℚ) : MetricsCore :=
  let completed := completedOf trades
  if completed = [] then emptyMetrics
  else
    let finalEquity := finalEquityOf equityCurve initialCapital
    let totalReturn := finalEquity - initialCapital
    let winning := winningOf trades
    let losing := losingOf trades
    let wins := totalWins trades
    let losses := totalLosses trades
    let durations := (completed.filter (fun t => t.exitTime.isSome)).map
      (fun t => (t.exitTime.getD 0 - t.entryTime) / (1000 * 60))
    let cons := consecutiveOf completed
    let dd := drawdownOf equityCurve initialCapital
    { totalReturn := totalReturn
      totalReturnPercent := totalReturn / initialCapital * 100
      maxDrawdown := dd.1
      maxDrawdownPercent := dd.2
      winRate := (winning.length : ℚ) / (completed.length : ℚ) * 100
      profitFactor := profitFactorOf trades
      totalTrades := completed.length
      winningTrades := winning.length
      losingTrades := losing.length
      averageWin := if winning.length ≠ 0 then wins / (winning.length : ℚ) else 0
      averageLoss := if losing.length ≠ 0 then losses / (losing.length : ℚ) else 0
      averageTradeDuration :=
        if durations.length ≠ 0 then durations.sum / (durations.length : ℚ) else 0
      largestWin := ((winning.map pnlD).max?).getD 0
      largestLoss := |((losing.map pnlD).min?).getD 0|
      consecutiveWins := cons.1
      consecutiveLosses := cons.2
      expectancy := totalReturn / (completed.length : ℚ) }

/-- The result record a run returns. -/
structure BacktestResult where
  strategyName : String
  params : Params
  config : BacktestConfig
  trades : List Trade
  equityCurve : List EquityPoint
  metrics : MetricsCore
  startDate : ℚ
  endDate : ℚ
  candleCount : ℕ
deriving DecidableEq

/-- The mutable instance fields of a BacktestEngine object. -/
structure EngineMut where
  candles : List Candle
  currentIndex : ℕ
  position : Option Position
  trades : List Trade
  equity : ℚ
  equityCurve : List EquityPoint
  tradeIdCounter : ℕ
deriving DecidableEq

/-- A BacktestEngine instance: its configuration plus mutable state. -/
structure BacktestEngine where
  config : BacktestConfig
  state : EngineMut
deriving DecidableEq

/-- A freshly constructed engine. -/
def mkEngine (cfg : BacktestConfig) : BacktestEngine :=
  { config := cfg
    state :=
      { candles := [], currentIndex := 0, position := none, trades := []
        equity := cfg.initialCapital, equityCurve := [], tradeIdCounter := 0 } }

/-- The reset state run installs at entry. -/
def initialState (cfg : BacktestConfig) : EngineState :=
  { position := none, trades := [], equity := cfg.initialCapital
    equityCurve := [], tradeIdCounter := 0 }

/-- Placeholder candle for head and last lookups; on the non-empty lists
run works with it is never the value actually read. -/
def defaultCandle : Candle := { timestamp := 0, opn := 0, high := 0, low := 0, close := 0 }

/-- First candle of the data (candles at index 0 in the source). -/
def headCandleOf (candles : List Candle) : Candle := candles.headD defaultCandle

/-- Last candle of the data. -/
def lastCandleOf (candles : List Candle) : Candle := (candles.getLast?).getD defaultCandle

/-- State after the candle loop of run. -/
def loopState (cfg : BacktestConfig) (strat : Strategy) (candles : List Candle) : EngineState :=
  (candles.enum).foldl (stepCandle cfg strat candles) (initialState cfg)

/-- State after the candle loop and the forced end-of-data close of any
still-open position at the final candle close. -/
def finalState (cfg : BacktestConfig) (strat : Strategy) (candles : List Candle) : EngineState :=
  let stLoop := loopState cfg strat candles
  if stLoop.position.isSome then
    closePosition cfg stLoop (lastCandleOf candles).close (lastCandleOf candles).timestamp
      "End of backtest"
  else stLoop

/-- The result record run returns on a non-empty candle list. -/
def resultOf (cfg : BacktestConfig) (strat : Strategy) (candles : List Candle) :
    BacktestResult :=
  { strategyName := strat.name
    params := strat.params
    config := cfg
    trades := (finalState cfg strat candles).trades
    equityCurve := (finalState cfg strat candles).equityCurve
    metrics := calculateMetricsCore (finalState cfg strat candles).trades
      (finalState cfg strat candles).equityCurve cfg.initialCapital
      (headCandleOf candles).timestamp (lastCandleOf candles).timestamp
    startDate := (headCandleOf candles).timestamp
    endDate := (lastCandleOf candles).timestamp
    candleCount := candles.length }

/-- The mutable engine fields as run leaves them. -/
def mutOf (cfg : BacktestConfig) (strat : Strategy) (candles : List Candle) : EngineMut :=
  { candles := candles
    currentIndex := candles.length
    position := (finalState cfg strat candles).position
    trades := (finalState cfg strat candles).trades
    equity := (finalState cfg strat candles).equity
    equityCurve := (finalState cfg strat candles).equityCurve
    tradeIdCounter := (finalState cfg strat candles).tradeIdCounter }

/-- The body of run as a function of the configuration and arguments only:
the source resets every mutable engine field at entry, so the instance's
previous mutable state is never read. -/
def runAux (cfg : BacktestConfig) (candles : List Candle) (strat : Strategy) :
    Except String (BacktestResult × EngineMut) :=
  match candles with
  | [] => .error "No candle data provided"
  | _ :: _ => .ok (resultOf cfg strat candles, mutOf cfg strat candles)

/-- Run a backtest on an engine instance; fails fast on an empty candle
list and otherwise returns the result together with the post-run engine. -/
def BacktestEngine.run (e : BacktestEngine) (candles : List Candle) (strat : Strategy) :
    Except String (BacktestResult × BacktestEngine) :=
  (runAux e.config candles strat).map (fun rm => (rm.1, { config := e.config, state := rm.2 }))

/-- Sum of the trailing window of the given period ending at index i, the
inner summation loop of sma. -/
def windowSum (data : List ℚ) (i period : ℕ) : ℚ :=
  ((List.range period).map (fun j => data.getD (i - j) 0)).sum

/-- Simple moving average: NaN before the window has period values, then
the mean of the trailing window. -/
def sma (data : List ℚ) (period : ℕ) : List (Option ℚ) :=
  (List.range data.length).map
    (fun (i : ℕ) =>
      if (i : ℤ) < (period : ℤ) - 1 then none
      else some (windowSum data i period / (period : ℚ)))

/-- Value of the exponential moving average at one index: the first datum
at index 0, a cumulative mean while the window is short, an SMA seed at
index period - 1, then the EMA recurrence.  No branch produces NaN. -/
def emaVal (data : List ℚ) (period : ℕ) : ℕ → ℚ
  | 0 => data.getD 0 0
  | i + 1 =>
    if ((i : ℤ) + 1) < (period : ℤ) - 1 then
      (((List.range (i + 2)).map (fun j => data.getD j 0)).sum) / ((i : ℚ) + 2)
    else if ((i : ℤ) + 1) = (period : ℤ) - 1 then
      windowSum data (i + 1) period / (period : ℚ)
    else
      (data.getD (i + 1) 0 - emaVal data period i) * (2 / ((period : ℚ) + 1))
        + emaVal data period i

/-- Exponential moving average as the source array of per-index values;
every entry is defined (never the NaN sentinel). -/
def ema (data : List ℚ) (period : ℕ) : List (Option ℚ) :=
  (List.range data.length).map (fun i => some (emaVal data period i))

/-- A named parameter range for the optimizers. -/
structure ORange where
  min : ℚ
  max : ℚ
  step : ℚ
deriving DecidableEq

/-- Round to three decimals as the source does to avoid float noise. -/
def roundMilli (v : ℚ) : ℚ := (⌊v * 1000 + 1 / 2⌋ : ℚ) / 1000

/-- Values visited by the source loop from the range minimum up to its
maximum in increments of step.  The loop only terminates for a positive
step, so a non-positive step yields the empty list here; every claim
constrains the step to be positive. -/
def gridVals (mx stp v : ℚ) : List ℚ :=
  if h : 0 < stp ∧ v ≤ mx then v :: gridVals mx stp (v + stp) else []
termination_by (⌊(mx - v) / stp⌋ + 1).toNat
decreasing_by
  have hstp : (0 : ℚ) < stp := h.1
  have hv : v ≤ mx := h.2
  have hq : (0 : ℚ) ≤ (mx - v) / stp := div_nonneg (by linarith) (le_of_lt hstp)
  have hfl : (0 : ℤ) ≤ ⌊(mx - v) / stp⌋ := Int.floor_nonneg.mpr hq
  have harg : (mx - (v + stp)) / stp = (mx - v) / stp - 1 := by
    field_simp
    ring
  have : ⌊(mx - (v + stp)) / stp⌋ = ⌊(mx - v) / stp⌋ - 1 := by
    rw [harg]
    exact_mod_cast Int.floor_sub_int ((mx - v) / stp) 1
  rw [this]
  omega

/-- The recursive combination builder of GridSearchOptimizer: one list
entry per assignment of rounded grid values to the named ranges, merged
over the base parameters (bindings added later shadow earlier ones under
first-binding lookup). -/
def genCombAux (base : Params) : List (String × ORange) → Params → List Params
  | [], current => [current ++ base]
  | (key, r) :: rest, current =>
    (gridVals r.max r.step r.min).flatMap
      (fun v => genCombAux base rest ((key, roundMilli v) :: current))

/-- All parameter combinations for the given ranges and base parameters. -/
def generateCombinations (ranges : List (String × ORange)) (base : Params) : List Params :=
  genCombAux base ranges []

/-- The combination count the source reports: the product over ranges of
floor of the range span over step, plus one. -/
def getTotalCombinations (ranges : List (String × ORange)) : ℤ :=
  ranges.foldl (fun total kr => total * (⌊(kr.2.max - kr.2.min) / kr.2.step⌋ + 1)) 1

/-- One iteration of the GridSearchOptimizer.optimize loop: run the shared
engine on this combination's strategy, record the outcome (a failed run is
caught and merely logged in the source, so it records the error here). -/
def optStep (candles : List Candle) (factory : Params → Strategy)
    (acc : List (Params × Except String BacktestResult) × BacktestEngine) (p : Params) :
    List (Params × Except String BacktestResult) × BacktestEngine :=
  match acc.2.run candles (factory p) with
  | .ok re => (acc.1 ++ [(p, .ok re.1)], re.2)
  | .error s => (acc.1 ++ [(p, .error s)], acc.2)

/-- The evaluation loop of GridSearchOptimizer.optimize: one engine run per
combination on the single shared engine instance, recording each
combination with its outcome. -/
def optimizeEvaluations (engine0 : BacktestEngine) (candles : List Candle)
    (factory : Params → Strategy) (combos : List Params) :
    List (Params × Except String BacktestResult) :=
  (combos.foldl (optStep candles factory)
    (([] : List (Params × Except String BacktestResult)), engine0)).1

/-- Walk-forward window policy. -/
inductive WindowType where
  | rolling
  | anchored
deriving DecidableEq

/-- Walk-forward configuration; trainSplit is the source's train-fraction
field, and the nested optimization configure that generateWindows never
reads is omitted. -/
structure WalkForwardConfig where
  windowType : WindowType
  trainSplit : ℚ
  numWindows : ℕ
deriving DecidableEq

/-- A walk-forward window: the four boundary timestamps and the candle
index ranges (the source nests them as trainIndex and testIndex records;
their end fields are flattened here because end is a Lean keyword). -/
structure WFWindow where
  trainStart : ℚ
  trainEnd : ℚ
  testStart : ℚ
  testEnd : ℚ
  trainIdxStart : ℤ
  trainIdxEnd : ℤ
  testIdxStart : ℤ
  testIdxEnd : ℤ
deriving DecidableEq

/-- Timestamp lookup used when a window is emitted.  The source indexes the
candle array directly and would fault out of range; the default here is
immaterial because the claims only concern the index fields. -/
def tsAt (candles : List Candle) (i : ℤ) : ℚ :=
  (candles.getD i.toNat { timestamp := 0, opn := 0, high := 0, low := 0, close := 0 }).timestamp

/-- WalkForwardAnalyzer.generateWindows, translated from the source.
Integer division models Math.floor on the non-negative operands involved
(a zero numWindows makes both loops empty, so its division value is
unread). -/
def generateWindows (candles : List Candle) (cfg : WalkForwardConfig) : List WFWindow :=
  let total : ℤ := candles.length
  match cfg.windowType with
  | .rolling =>
    let windowSize : ℤ := total / (cfg.numWindows : ℤ)
    let trainSize : ℤ := ⌊(windowSize : ℚ) * cfg.trainSplit⌋
    let testSize : ℤ := windowSize - trainSize
    (List.range cfg.numWindows).filterMap
      (fun (i : ℕ) =>
        let trainStart := (i : ℤ) * windowSize
        let trainEnd := trainStart + trainSize - 1
        let testStart := trainEnd + 1
        let testEnd := min (testStart + testSize - 1) (total - 1)
        if testEnd ≤ trainEnd then none
        else some
          { trainStart := tsAt candles trainStart, trainEnd := tsAt candles trainEnd
            testStart := tsAt candles testStart, testEnd := tsAt candles testEnd
            trainIdxStart := trainStart, trainIdxEnd := trainEnd
            testIdxStart := testStart, testIdxEnd := testEnd })
  | .anchored =>
    let testSize : ℤ := total / (cfg.numWindows : ℤ)
    (List.range cfg.numWindows).filterMap
      (fun (i : ℕ) =>
        let trainEnd : ℤ := ⌊((i : ℚ) + 1) * (total : ℚ) * cfg.trainSplit / (cfg.numWindows : ℚ)⌋
        let testStart := trainEnd + 1
        let testEnd := min (testStart + testSize - 1) (total - 1)
        if testEnd ≤ testStart then none
        else some
          { trainStart := tsAt candles 0, trainEnd := tsAt candles trainEnd
            testStart := tsAt candles testStart, testEnd := tsAt candles testEnd
            trainIdxStart := 0, trainIdxEnd := trainEnd
            testIdxStart := testStart, testIdxEnd := testEnd })

/-- Disjointness of the candle-index ranges (train start through test end)
of two windows. -/
def windowRangesDisjointB (w1 w2 : WFWindow) : Bool :=
  decide (w1.testIdxEnd < w2.trainIdxStart) || decide (w2.testIdxEnd < w1.trainIdxStart)

/-- Boolean pairwise check of a relation over a list. -/
def pairwiseB (p : α → α → Bool) : List α → Bool
  | [] => true
  | x :: xs => xs.all (p x) && pairwiseB p xs

/-- Monte Carlo configuration. -/
structure MonteCarloConfig where
  simulations : ℕ
  initialCapital : ℚ
  ruinThreshold : ℚ
deriving DecidableEq

/-- In-bounds element swap on a list (the array destructuring swap of the
source); out-of-range indices leave the list unchanged, a case the shuffle
loop never produces. -/
def swapL (l : List α) (i j : ℕ) : List α :=
  if h : i < l.length ∧ j < l.length then
    (l.set i (l.get ⟨j, h.2⟩)).set j (l.get ⟨i, h.1⟩)
  else l

/-- The Fisher-Yates loop: the counter walks from the last index down to 1,
swapping position i with a drawn position in 0..i.  The oracle value is
reduced modulo i + 1, exactly the range Math.floor(random times i + 1)
draws from. -/
def fyAux (r : ℕ → ℕ) : ℕ → List α → List α
  | 0, l => l
  | i + 1, l => fyAux r i (swapL l (i + 1) (r (i + 1) % (i + 2)))

/-- MonteCarloSimulator.shuffleTrades on a copied list. -/
def shuffleTrades (r : ℕ → ℕ) (l : List α) : List α := fyAux r (l.length - 1) l

/-- Accumulator of the per-simulation equity replay. -/
structure SimAcc where
  equity : ℚ
  peak : ℚ
  maxDrawdown : ℚ
  hitRuin : Bool
  rets : List ℚ
deriving DecidableEq

/-- Outcome of one simulated equity curve.  The source's per-simulation
sharpeRatio needs a real square root and is omitted (see the file
header). -/
structure SimOutcome where
  totalReturn : ℚ
  maxDrawdown : ℚ
  finalEquity : ℚ
  hitRuin : Bool
deriving DecidableEq

/-- One trade of the per-simulation equity replay: trades with null pnl are
skipped, others move equity and update peak, drawdown and the ruin flag. -/
def simStep (cfg : MonteCarloConfig) (acc : SimAcc) (t : Trade) : SimAcc :=
  match t.pnl with
  | none => acc
  | some p =>
    let newEquity := acc.equity + p
    let rets := acc.rets ++ [(newEquity - acc.equity) / acc.equity]
    let peak := max acc.peak newEquity
    let drawdown := (peak - newEquity) / peak
    { equity := newEquity
      peak := peak
      maxDrawdown := max acc.maxDrawdown drawdown
      hitRuin := acc.hitRuin || decide (cfg.ruinThreshold ≤ drawdown)
      rets := rets }

/-- MonteCarloSimulator.simulateEquityCurve: replay the trade pnl sequence
from the configured initial capital, tracking running peak, drawdown and
the ruin flag. -/
def simulateEquityCurve (cfg : MonteCarloConfig) (trades : List Trade) : SimOutcome :=
  let acc := trades.foldl (simStep cfg)
    ({ equity := cfg.initialCapital, peak := cfg.initialCapital
       maxDrawdown := 0, hitRuin := false, rets := [] } : SimAcc)
  { totalReturn := (acc.equity - cfg.initialCapital) / cfg.initialCapital * 100
    maxDrawdown := acc.maxDrawdown * 100
    finalEquity := acc.equity
    hitRuin := acc.hitRuin }

/-! Engine bookkeeping lemmas. -/

/-- Accounting potential of an engine state: equity minus summed realized
pnl; every engine operation preserves it. -/
def acctOf (st : EngineState) : ℚ := st.equity - sumPnl st.trades

lemma sumPnl_append (l1 l2 : List Trade) : sumPnl (l1 ++ l2) = sumPnl l1 + sumPnl l2 := by
  simp [sumPnl]

lemma closePosition_of_some {st : EngineState} {pos : Position}
    (cfg : BacktestConfig) (p t : ℚ) (r : String) (hp : st.position = some pos) :
    closePosition cfg st p t r =
      { st with
        trades := st.trades ++ [mkCloseTrade cfg pos p t]
        equity := st.equity + (mkCloseTrade cfg pos p t).pnl.getD 0
        position := none } := by
  simp [closePosition, hp]

lemma acctOf_closePosition (cfg : BacktestConfig) (st : EngineState) (p t : ℚ) (r : String) :
    acctOf (closePosition cfg st p t r) = acctOf st := by
  cases hp : st.position with
  | none => simp [closePosition, hp]
  | some pos =>
    rw [closePosition_of_some cfg p t r hp]
    simp only [acctOf, sumPnl, List.map_append, List.sum_append, List.map_cons, List.map_nil,
      List.sum_cons, List.sum_nil, pnlD]
    ring

lemma closePosition_equityCurve (cfg : BacktestConfig) (st : EngineState) (p t : ℚ)
    (r : String) : (closePosition cfg st p t r).equityCurve = st.equityCurve := by
  cases hp : st.position with
  | none => simp [closePosition, hp]
  | some pos => rw [closePosition_of_some cfg p t r hp]

lemma acctOf_openPosition (cfg : BacktestConfig) (st : EngineState) (d : TradeDirection)
    (c : Candle) (sg : Signal) : acctOf (openPosition cfg st d c sg) = acctOf st := rfl

lemma acctOf_updateEquityCurve (st : EngineState) (c : Candle) :
    acctOf (updateEquityCurve st c) = acctOf st := rfl

lemma updateEquityCurve_trades (st : EngineState) (c : Candle) :
    (updateEquityCurve st c).trades = st.trades := rfl

lemma acctOf_checkExitConditions (cfg : BacktestConfig) (st : EngineState) (c : Candle) :
    acctOf (checkExitConditions cfg st c) = acctOf st := by
  cases hp : st.position with
  | none => simp [checkExitConditions, hp]
  | some pos =>
    simp only [checkExitConditions, hp]
    split_ifs <;> first | apply acctOf_closePosition | rfl

lemma acctOf_executeSignal (cfg : BacktestConfig) (st : EngineState) (sg : Signal)
    (c : Candle) : acctOf (executeSignal cfg st sg c) = acctOf st := by
  cases hty : sg.type with
  | buy =>
    simp only [executeSignal, hty]
    split <;> split <;>
      first
        | (rw [acctOf_openPosition]; first | apply acctOf_closePosition | rfl)
        | apply acctOf_closePosition
        | rfl
  | sell =>
    simp only [executeSignal, hty]
    split <;> split <;>
      first
        | (rw [acctOf_openPosition]; first | apply acctOf_closePosition | rfl)
        | apply acctOf_closePosition
        | rfl
  | close =>
    simp only [executeSignal, hty]
    split
    · apply acctOf_closePosition
    · rfl

lemma acctOf_stepCandle (cfg : BacktestConfig) (strat : Strategy) (candles : List Candle)
    (st : EngineState) (ic : ℕ × Candle) :
    acctOf (stepCandle cfg strat candles st ic) = acctOf st := by
  simp only [stepCandle]
  rw [acctOf_updateEquityCurve]
  cases hsg : strat.onCandle ic.1 (candles.take (ic.1 + 1))
      (checkExitConditions cfg st ic.2).position with
  | none => rw [acctOf_checkExitConditions]
  | some sg => rw [acctOf_executeSignal, acctOf_checkExitConditions]

lemma acctOf_foldl (cfg : BacktestConfig) (strat : Strategy) (candles : List Candle)
    (l : List (ℕ × Candle)) (st : EngineState) :
    acctOf (l.foldl (stepCandle cfg strat candles) st) = acctOf st := by
  induction l generalizing st with
  | nil => rfl
  | cons a l ih => rw [List.foldl_cons, ih, acctOf_stepCandle]

lemma acctOf_loopState (cfg : BacktestConfig) (strat : Strategy) (candles : List Candle) :
    acctOf (loopState cfg strat candles) = cfg.initialCapital := by
  unfold loopState
  rw [acctOf_foldl]
  simp [acctOf, initialState, sumPnl]

lemma acctOf_finalState (cfg : BacktestConfig) (strat : Strategy) (candles : List Candle) :
    acctOf (finalState cfg strat candles) = cfg.initialCapital := by
  simp only [finalState]
  split
  · rw [acctOf_closePosition, acctOf_loopState]
  · rw [acctOf_loopState]

lemma updateEquityCurve_getLast (st : EngineState) (c : Candle) :
    (updateEquityCurve st c).equityCurve.getLast? =
      some { timestamp := c.timestamp
             equity := st.equity +
               (match st.position with
                | some pos => unrealizedPnl pos c.close
                | none => 0) } := by
  simp [updateEquityCurve, List.getLast?_concat]

lemma stepCandle_getLast (cfg : BacktestConfig) (strat : Strategy) (candles : List Candle)
    (st : EngineState) (i : ℕ) (c : Candle) :
    (stepCandle cfg strat candles st (i, c)).equityCurve.getLast? =
      some { timestamp := c.timestamp
             equity := (stepCandle cfg strat candles st (i, c)).equity +
               (match (stepCandle cfg strat candles st (i, c)).position with
                | some pos => unrealizedPnl pos c.close
                | none => 0) } := by
  simp only [stepCandle]
  rw [updateEquityCurve_getLast]
  rfl

lemma mkCloseTrade_pnl_frictionless (cfg : BacktestConfig) (pos : Position) (price t : ℚ)
    (hc : cfg.commission = 0) (hs : cfg.slippage = 0) :
    (mkCloseTrade cfg pos price t).pnl = some (unrealizedPnl pos price) := by
  cases hd : pos.direction <;> simp [mkCloseTrade, unrealizedPnl, hd, hc, hs]

lemma sumPnl_loopState (cfg : BacktestConfig) (strat : Strategy) (candles : List Candle) :
    sumPnl (loopState cfg strat candles).trades =
      (loopState cfg strat candles).equity - cfg.initialCapital := by
  have h := acctOf_loopState cfg strat candles
  simp only [acctOf] at h
  linarith

lemma finalState_friction_free (cfg : BacktestConfig) (strat : Strategy)
    (candles : List Candle) (hne : candles ≠ [])
    (hc : cfg.commission = 0) (hs : cfg.slippage = 0) :
    sumPnl (finalState cfg strat candles).trades =
      finalEquityOf (finalState cfg strat candles).equityCurve cfg.initialCapital
        - cfg.initialCapital := by
  rcases candles.eq_nil_or_concat with h | ⟨cs, clast, h⟩
  · exact absurd h hne
  subst h
  rw [List.concat_eq_append] at *
  have hlast : lastCandleOf (cs ++ [clast]) = clast := by
    simp [lastCandleOf, List.getLast?_concat]
  have henum : (cs ++ [clast]).enum = cs.enum ++ [(cs.length, clast)] := by
    rw [List.enum_append]
    simp [List.enumFrom]
  have hloop : loopState cfg strat (cs ++ [clast]) =
      stepCandle cfg strat (cs ++ [clast])
        (cs.enum.foldl (stepCandle cfg strat (cs ++ [clast])) (initialState cfg))
        (cs.length, clast) := by
    unfold loopState
    rw [henum, List.foldl_append]
    rfl
  have hA_last := stepCandle_getLast cfg strat (cs ++ [clast])
    (cs.enum.foldl (stepCandle cfg strat (cs ++ [clast])) (initialState cfg)) cs.length clast
  rw [← hloop] at hA_last
  have hacct := sumPnl_loopState cfg strat (cs ++ [clast])
  unfold finalState
  rw [hlast]
  cases hpos : (loopState cfg strat (cs ++ [clast])).position with
  | none =>
    rw [hpos] at hA_last
    simp only [hpos, Option.isSome_none, Bool.false_eq_true, if_false]
    rw [finalEquityOf, hA_last]
    simp only
    rw [hacct]
    ring
  | some pos =>
    rw [hpos] at hA_last
    simp only [hpos, Option.isSome_some, if_true]
    rw [closePosition_of_some cfg clast.close clast.timestamp "End of backtest" hpos]
    simp only
    rw [finalEquityOf, hA_last]
    simp only
    have h1 : sumPnl [mkCloseTrade cfg pos clast.close clast.timestamp] =
        unrealizedPnl pos clast.close := by
      simp [sumPnl, pnlD,
        mkCloseTrade_pnl_frictionless cfg pos clast.close clast.timestamp hc hs]
    rw [sumPnl_append, h1, hacct]
    ring

lemma runAux_ok_elim {cfg : BacktestConfig} {candles : List Candle} {strat : Strategy}
    {res : BacktestResult} {m : EngineMut}
    (h : runAux cfg candles strat = .ok (res, m)) :
    candles ≠ [] ∧ res = resultOf cfg strat candles ∧ m = mutOf cfg strat candles := by
  cases candles with
  | nil => simp [runAux] at h
  | cons c0 rest =>
    simp only [runAux, Except.ok.injEq, Prod.mk.injEq] at h
    exact ⟨by simp, h.1.symm, h.2.symm⟩

lemma run_ok_elim {e : BacktestEngine} {candles : List Candle} {strat : Strategy}
    {res : BacktestResult} {e2 : BacktestEngine}
    (h : e.run candles strat = .ok (res, e2)) :
    candles ≠ [] ∧ res = resultOf e.config strat candles ∧
      e2 = { config := e.config, state := mutOf e.config strat candles } := by
  unfold BacktestEngine.run at h
  cases hra : runAux e.config candles strat with
  | error s => rw [hra] at h; simp [Except.map] at h
  | ok rm =>
    obtain ⟨r0, m0⟩ := rm
    rw [hra] at h
    simp only [Except.map, Except.ok.injEq, Prod.mk.injEq] at h
    obtain ⟨hne, hr, hm⟩ := runAux_ok_elim hra
    exact ⟨hne, h.1 ▸ hr, h.2 ▸ (by rw [hm])⟩

/-- C1 (amended).  For every engine, non-empty candle list and strategy,
the sum of pnl over the returned trades equals the engine's final equity
minus the initial capital, exactly; and it equals the last equity-curve
point's equity (the finalEquity calculateMetrics uses) minus the initial
capital whenever commission and slippage are zero.  With nonzero friction
and a position force-closed at end of data the curve identity fails (see
the counterexample). -/
theorem c1_trade_pnl_accounting (e : BacktestEngine) (candles : List Candle)
    (strat : Strategy) (res : BacktestResult) (e2 : BacktestEngine)
    (hok : e.run candles strat = .ok (res, e2)) :
    sumPnl res.trades = e2.state.equity - e.config.initialCapital ∧
    (e.config.commission = 0 → e.config.slippage = 0 →
      sumPnl res.trades =
        finalEquityOf res.equityCurve e.config.initialCapital - e.config.initialCapital) := by
  obtain ⟨hne, hres, he2⟩ := run_ok_elim hok
  subst hres
  subst he2
  constructor
  · show sumPnl (resultOf e.config strat candles).trades = _
    simp only [resultOf, mutOf]
    have h := acctOf_finalState e.config strat candles
    simp only [acctOf] at h
    linarith
  · intro hc hs
    simp only [resultOf]
    exact finalState_friction_free e.config strat candles hne hc hs

/-- Configuration with nonzero commission for the C1 counterexample. -/
def c1CexCfg : BacktestConfig :=
  { initialCapital := 1000, commission := 1 / 100, slippage := 0, leverage := 1
    maxPositionSize := 1 }

/-- One flat candle for the C1 counterexample. -/
def c1CexCandles : List Candle :=
  [{ timestamp := 1, opn := 100, high := 100, low := 100, close := 100 }]

/-- Strategy that buys once and then holds, for the C1 counterexample. -/
def c1CexStrat : Strategy :=
  { name := "always-buy", params := []
    onCandle := fun _ _ pos =>
      match pos with
      | none => some { type := .buy }
      | some _ => none }

/-- C1 counterexample.  With 1 percent commission and a position still open
at the end of data, the engine force-closes it after the last equity-curve
point was recorded: the summed trade pnl is -20 while the last equity-curve
point minus the initial capital is 0, a 20-currency-unit discrepancy far
beyond floating tolerance, refuting the claim as stated. -/
theorem c1_counterexample :
    ((BacktestEngine.run (mkEngine c1CexCfg) c1CexCandles c1CexStrat).toOption.map
      (fun p => sumPnl p.1.trades)) = some (-20) ∧
    ((BacktestEngine.run (mkEngine c1CexCfg) c1CexCandles c1CexStrat).toOption.map
      (fun p => finalEquityOf p.1.equityCurve 1000)) = some 1000 ∧
    (-20 : ℚ) ≠ 1000 - 1000 := by
  refine ⟨?_, ?_, by norm_num⟩ <;>
    norm_num [BacktestEngine.run, runAux, resultOf, mutOf, finalState, loopState, initialState,
      stepCandle, checkExitConditions, executeSignal, openPosition, closePosition, mkCloseTrade,
      updateEquityCurve, unrealizedPnl, truthyOpt, sumPnl, pnlD, finalEquityOf, lastCandleOf,
      headCandleOf, c1CexCfg, c1CexCandles, c1CexStrat, mkEngine, List.enum, List.enumFrom,
      Except.map, Option.map, Except.toOption]

/-- Frictionless configuration for the C1 witness. -/
def c1WitCfg : BacktestConfig :=
  { initialCapital := 1000, commission := 0, slippage := 0, leverage := 1
    maxPositionSize := 1 }

/-- Two rising candles for the C1 witness. -/
def c1WitCandles : List Candle :=
  [{ timestamp := 1, opn := 100, high := 100, low := 100, close := 100 },
   { timestamp := 2, opn := 110, high := 110, low := 110, close := 110 }]

/-- Buy-and-hold strategy for the C1 witness. -/
def c1WitStrat : Strategy :=
  { name := "always-buy", params := []
    onCandle := fun _ _ pos =>
      match pos with
      | none => some { type := .buy }
      | some _ => none }

/-- The C1 witness run. -/
def c1WitRun : Except String (BacktestResult × BacktestEngine) :=
  BacktestEngine.run (mkEngine c1WitCfg) c1WitCandles c1WitStrat

/-- Result of the C1 witness run. -/
def c1WitRes : BacktestResult :=
  match c1WitRun with
  | .ok p => p.1
  | .error _ => resultOf c1WitCfg c1WitStrat c1WitCandles

/-- Post-run engine of the C1 witness run. -/
def c1WitEng : BacktestEngine :=
  match c1WitRun with
  | .ok p => p.2
  | .error _ => mkEngine c1WitCfg

/-- C1 witness: the amended accounting identity evaluated on a concrete
frictionless run. -/
theorem c1_witness :
    sumPnl c1WitRes.trades = c1WitEng.state.equity - 1000 ∧
    sumPnl c1WitRes.trades = finalEquityOf c1WitRes.equityCurve 1000 - 1000 := by
  have hok : BacktestEngine.run (mkEngine c1WitCfg) c1WitCandles c1WitStrat
      = .ok (c1WitRes, c1WitEng) := rfl
  have h := c1_trade_pnl_accounting (mkEngine c1WitCfg) c1WitCandles c1WitStrat
    c1WitRes c1WitEng hok
  exact ⟨h.1, h.2 rfl rfl⟩

/-- C3.  The result of run depends only on the configuration, candles and
strategy, never on the instance's previous mutable state; and re-running
the same instance after a successful run reproduces the identical result
and post-state, so no position, trade, equity-curve or trade-id counter
state leaks between runs. -/
theorem c3_run_state_independent (cfg : BacktestConfig) (m1 m2 : EngineMut)
    (candles : List Candle) (strat : Strategy) :
    BacktestEngine.run { config := cfg, state := m1 } candles strat
      = BacktestEngine.run { config := cfg, state := m2 } candles strat ∧
    (∀ res e2, BacktestEngine.run { config := cfg, state := m1 } candles strat = .ok (res, e2) →
      BacktestEngine.run e2 candles strat = .ok (res, e2)) := by
  constructor
  · rfl
  · intro res e2 h
    obtain ⟨hne, hres, he2⟩ := run_ok_elim h
    subst hres
    subst he2
    unfold BacktestEngine.run
    cases candles with
    | nil => exact absurd rfl hne
    | cons c0 rest => rfl

/-- Configuration for the C3 witness. -/
def c3Cfg : BacktestConfig :=
  { initialCapital := 1000, commission := 0, slippage := 0, leverage := 1
    maxPositionSize := 1 }

/-- A dirty mutable state full of leftover garbage for the C3 witness. -/
def c3DirtyMut : EngineMut :=
  { candles := [], currentIndex := 5
    position := some
      { id := "pos-9", direction := .long, entryTime := 0, entryPrice := 50, size := 10 }
    trades := [], equity := 777, equityCurve := [{ timestamp := 0, equity := 777 }]
    tradeIdCounter := 9 }

/-- One candle for the C3 witness. -/
def c3Candles : List Candle :=
  [{ timestamp := 1, opn := 100, high := 100, low := 100, close := 100 }]

/-- A never-signalling strategy for the C3 witness. -/
def c3Strat : Strategy := { name := "never", params := [], onCandle := fun _ _ _ => none }

/-- The C3 witness run on the dirty engine. -/
def c3Run1 : Except String (BacktestResult × BacktestEngine) :=
  BacktestEngine.run { config := c3Cfg, state := c3DirtyMut } c3Candles c3Strat

/-- Result of the C3 witness run. -/
def c3Res : BacktestResult :=
  match c3Run1 with
  | .ok p => p.1
  | .error _ => resultOf c3Cfg c3Strat c3Candles

/-- Post-run engine of the C3 witness run. -/
def c3Eng : BacktestEngine :=
  match c3Run1 with
  | .ok p => p.2
  | .error _ => mkEngine c3Cfg

/-- C3 witness: a dirty instance gives the same answer as a fresh engine,
and re-running the post-run instance reproduces the result. -/
theorem c3_witness :
    BacktestEngine.run { config := c3Cfg, state := c3DirtyMut } c3Candles c3Strat
      = BacktestEngine.run (mkEngine c3Cfg) c3Candles c3Strat ∧
    BacktestEngine.run c3Eng c3Candles c3Strat = .ok (c3Res, c3Eng) := by
  have h := c3_run_state_independent c3Cfg c3DirtyMut (mkEngine c3Cfg).state c3Candles c3Strat
  exact ⟨h.1, h.2 c3Res c3Eng rfl⟩

/-! Lemmas for the exit-before-strategy ordering. -/

lemma executeSignal_trades_of_none (cfg : BacktestConfig) (st : EngineState) (sg : Signal)
    (c : Candle) (h : st.position = none) : (executeSignal cfg st sg c).trades = st.trades := by
  cases hty : sg.type <;>
    simp [executeSignal, hty, h, openPosition, closePosition]

lemma stepCandle_trades_formula (cfg : BacktestConfig) (strat : Strategy)
    (candles : List Candle) (st : EngineState) (i : ℕ) (c : Candle) :
    (stepCandle cfg strat candles st (i, c)).trades =
      (match strat.onCandle i (candles.take (i + 1)) (checkExitConditions cfg st c).position with
       | some sg => executeSignal cfg (checkExitConditions cfg st c) sg c
       | none => checkExitConditions cfg st c).trades := rfl

lemma stepCandle_trades_after_close (cfg : BacktestConfig) (strat : Strategy)
    (candles : List Candle) (st : EngineState) (i : ℕ) (c : Candle) (pos : Position)
    (price : ℚ) (reason : String) (hp : st.position = some pos)
    (hcheck : checkExitConditions cfg st c = closePosition cfg st price c.timestamp reason) :
    (stepCandle cfg strat candles st (i, c)).trades
      = st.trades ++ [mkCloseTrade cfg pos price c.timestamp] := by
  have hpos1 : (checkExitConditions cfg st c).position = none := by
    rw [hcheck, closePosition_of_some cfg price c.timestamp reason hp]
  rw [stepCandle_trades_formula, hpos1]
  cases hsg : strat.onCandle i (candles.take (i + 1)) none with
  | none =>
    simp only [hsg]
    rw [hcheck, closePosition_of_some cfg price c.timestamp reason hp]
  | some sg =>
    simp only [hsg]
    rw [executeSignal_trades_of_none cfg _ sg c hpos1]
    rw [hcheck, closePosition_of_some cfg price c.timestamp reason hp]

lemma checkExit_long_sl (cfg : BacktestConfig) (st : EngineState) (c : Candle)
    (pos : Position) (hp : st.position = some pos) (hd : pos.direction = .long)
    (hsl : truthyOpt pos.stopLoss = true) (hle : c.low ≤ pos.stopLoss.getD 0) :
    checkExitConditions cfg st c
      = closePosition cfg st (pos.stopLoss.getD 0) c.timestamp "Stop loss hit" := by
  simp [checkExitConditions, hp, hd, hsl, hle]

lemma checkExit_long_tp (cfg : BacktestConfig) (st : EngineState) (c : Candle)
    (pos : Position) (hp : st.position = some pos) (hd : pos.direction = .long)
    (hns : (truthyOpt pos.stopLoss && decide (c.low ≤ pos.stopLoss.getD 0)) = false)
    (htp : truthyOpt pos.takeProfit = true) (hge : c.high ≥ pos.takeProfit.getD 0) :
    checkExitConditions cfg st c
      = closePosition cfg st (pos.takeProfit.getD 0) c.timestamp "Take profit hit" := by
  simp [checkExitConditions, hp, hd, hns, htp, hge]

lemma checkExit_short_sl (cfg : BacktestConfig) (st : EngineState) (c : Candle)
    (pos : Position) (hp : st.position = some pos) (hd : pos.direction = .short)
    (hsl : truthyOpt pos.stopLoss = true) (hge : c.high ≥ pos.stopLoss.getD 0) :
    checkExitConditions cfg st c
      = closePosition cfg st (pos.stopLoss.getD 0) c.timestamp "Stop loss hit" := by
  simp [checkExitConditions, hp, hd, hsl, hge]

lemma checkExit_short_tp (cfg : BacktestConfig) (st : EngineState) (c : Candle)
    (pos : Position) (hp : st.position = some pos) (hd : pos.direction = .short)
    (hns : (truthyOpt pos.stopLoss && decide (c.high ≥ pos.stopLoss.getD 0)) = false)
    (htp : truthyOpt pos.takeProfit = true) (hle : c.low ≤ pos.takeProfit.getD 0) :
    checkExitConditions cfg st c
      = closePosition cfg st (pos.takeProfit.getD 0) c.timestamp "Take profit hit" := by
  simp [checkExitConditions, hp, hd, hns, htp, hle]

lemma mkCloseTrade_exitPrice_long (cfg : BacktestConfig) (pos : Position) (price t : ℚ)
    (hd : pos.direction = .long) :
    (mkCloseTrade cfg pos price t).exitPrice = some (price - cfg.slippage * (1 / 100)) := by
  simp [mkCloseTrade, hd]

lemma mkCloseTrade_exitPrice_short (cfg : BacktestConfig) (pos : Position) (price t : ℚ)
    (hd : pos.direction = .short) :
    (mkCloseTrade cfg pos price t).exitPrice = some (price + cfg.slippage * (1 / 100)) := by
  simp [mkCloseTrade, hd]

/-- C2 (amended).  While a position is open, the candle step tests the
truthy stop-loss and take-profit levels against the candle low and high
before the strategy acts — whatever the strategy signals, the step appends
exactly the one exit trade — closing at the stop or target price itself
(adjusted by the configured slippage offset), not the candle close; the
stop is tested first.  The reason string passed on trigger is discarded
rather than recorded on the trade (see the counterexample). -/
theorem c2_exit_check_before_strategy (cfg : BacktestConfig) (strat : Strategy)
    (candles : List Candle) (st : EngineState) (i : ℕ) (c : Candle) (pos : Position)
    (hp : st.position = some pos) :
    (pos.direction = .long → truthyOpt pos.stopLoss = true → c.low ≤ pos.stopLoss.getD 0 →
      (stepCandle cfg strat candles st (i, c)).trades
        = st.trades ++ [mkCloseTrade cfg pos (pos.stopLoss.getD 0) c.timestamp] ∧
      (mkCloseTrade cfg pos (pos.stopLoss.getD 0) c.timestamp).exitPrice
        = some (pos.stopLoss.getD 0 - cfg.slippage * (1 / 100))) ∧
    (pos.direction = .long →
      (truthyOpt pos.stopLoss && decide (c.low ≤ pos.stopLoss.getD 0)) = false →
      truthyOpt pos.takeProfit = true → c.high ≥ pos.takeProfit.getD 0 →
      (stepCandle cfg strat candles st (i, c)).trades
        = st.trades ++ [mkCloseTrade cfg pos (pos.takeProfit.getD 0) c.timestamp] ∧
      (mkCloseTrade cfg pos (pos.takeProfit.getD 0) c.timestamp).exitPrice
        = some (pos.takeProfit.getD 0 - cfg.slippage * (1 / 100))) ∧
    (pos.direction = .short → truthyOpt pos.stopLoss = true → c.high ≥ pos.stopLoss.getD 0 →
      (stepCandle cfg strat candles st (i, c)).trades
        = st.trades ++ [mkCloseTrade cfg pos (pos.stopLoss.getD 0) c.timestamp] ∧
      (mkCloseTrade cfg pos (pos.stopLoss.getD 0) c.timestamp).exitPrice
        = some (pos.stopLoss.getD 0 + cfg.slippage * (1 / 100))) ∧
    (pos.direction = .short →
      (truthyOpt pos.stopLoss && decide (c.high ≥ pos.stopLoss.getD 0)) = false →
      truthyOpt pos.takeProfit = true → c.low ≤ pos.takeProfit.getD 0 →
      (stepCandle cfg strat candles st (i, c)).trades
        = st.trades ++ [mkCloseTrade cfg pos (pos.takeProfit.getD 0) c.timestamp] ∧
      (mkCloseTrade cfg pos (pos.takeProfit.getD 0) c.timestamp).exitPrice
        = some (pos.takeProfit.getD 0 + cfg.slippage * (1 / 100))) := by
  refine ⟨fun hd hsl hle => ⟨?_, ?_⟩, fun hd hns htp hge => ⟨?_, ?_⟩,
    fun hd hsl hge => ⟨?_, ?_⟩, fun hd hns htp hle => ⟨?_, ?_⟩⟩
  · exact stepCandle_trades_after_close cfg strat candles st i c pos _ _ hp
      (checkExit_long_sl cfg st c pos hp hd hsl hle)
  · exact mkCloseTrade_exitPrice_long cfg pos _ _ hd
  · exact stepCandle_trades_after_close cfg strat candles st i c pos _ _ hp
      (checkExit_long_tp cfg st c pos hp hd hns htp hge)
  · exact mkCloseTrade_exitPrice_long cfg pos _ _ hd
  · exact stepCandle_trades_after_close cfg strat candles st i c pos _ _ hp
      (checkExit_short_sl cfg st c pos hp hd hsl hge)
  · exact mkCloseTrade_exitPrice_short cfg pos _ _ hd
  · exact stepCandle_trades_after_close cfg strat candles st i c pos _ _ hp
      (checkExit_short_tp cfg st c pos hp hd hns htp hle)
  · exact mkCloseTrade_exitPrice_short cfg pos _ _ hd

/-- Configuration for the C2 counterexample. -/
def c2CexCfg : BacktestConfig :=
  { initialCapital := 1000, commission := 0, slippage := 0, leverage := 1
    maxPositionSize := 1 }

/-- State with an open long position for the C2 counterexample. -/
def c2CexState : EngineState :=
  { position := some
      { id := "pos-1", direction := .long, entryTime := 0, entryPrice := 100, size := 100
        stopLoss := some 90 }
    trades := [], equity := 1000, equityCurve := [], tradeIdCounter := 1 }

/-- C2 counterexample.  closePosition produces the identical state for two
different reason strings: the triggering reason is not recorded on the
trade (the Trade record has no reason field and the argument is unused),
refuting the claim's recording clause. -/
theorem c2_counterexample :
    closePosition c2CexCfg c2CexState 90 5 "Stop loss hit"
      = closePosition c2CexCfg c2CexState 90 5 "Take profit hit" ∧
    "Stop loss hit" ≠ "Take profit hit" := by
  exact ⟨rfl, by decide⟩

/-- Configuration for the C2 witness. -/
def c2WitCfg : BacktestConfig :=
  { initialCapital := 1000, commission := 0, slippage := 0, leverage := 1
    maxPositionSize := 1 }

/-- Open long position with stop 90 for the C2 witness. -/
def c2WitPos : Position :=
  { id := "pos-1", direction := .long, entryTime := 0, entryPrice := 100, size := 100
    stopLoss := some 90 }

/-- State holding the C2 witness position. -/
def c2WitState : EngineState :=
  { position := some c2WitPos, trades := [], equity := 1000, equityCurve := []
    tradeIdCounter := 1 }

/-- A candle whose low pierces the stop for the C2 witness. -/
def c2WitCandle : Candle := { timestamp := 5, opn := 95, high := 96, low := 89, close := 95 }

/-- A never-signalling strategy for the C2 witness. -/
def c2WitStrat : Strategy := { name := "never", params := [], onCandle := fun _ _ _ => none }

/-- C2 witness: the long-stop case evaluated on a concrete piercing
candle. -/
theorem c2_witness :
    (stepCandle c2WitCfg c2WitStrat [c2WitCandle] c2WitState (0, c2WitCandle)).trades
      = c2WitState.trades ++
          [mkCloseTrade c2WitCfg c2WitPos (c2WitPos.stopLoss.getD 0) c2WitCandle.timestamp] ∧
    (mkCloseTrade c2WitCfg c2WitPos (c2WitPos.stopLoss.getD 0) c2WitCandle.timestamp).exitPrice
      = some 90 := by
  have h := (c2_exit_check_before_strategy c2WitCfg c2WitStrat [c2WitCandle] c2WitState 0
    c2WitCandle c2WitPos rfl).1 rfl (by norm_num [c2WitPos, truthyOpt])
    (by norm_num [c2WitPos, c2WitCandle])
  refine ⟨h.1, ?_⟩
  rw [h.2]
  norm_num [c2WitPos, c2WitCfg]

/-- C9.  A buy or sell signal with no size field, or with the falsy size 0,
opens the position at the full cap equity times maxPositionSize times
leverage. -/
theorem c9_falsy_size_opens_full_cap (cfg : BacktestConfig) (st : EngineState)
    (dir : TradeDirection) (candle : Candle) (sg : Signal)
    (h : sg.size = none ∨ sg.size = some 0) :
    ((openPosition cfg st dir candle sg).position).map Position.size
      = some (st.equity * cfg.maxPositionSize * cfg.leverage) := by
  rcases h with h | h <;> simp [openPosition, truthyOpt, h]

/-- Configuration for the C9 witness. -/
def c9Cfg : BacktestConfig :=
  { initialCapital := 1000, commission := 0, slippage := 0, leverage := 2
    maxPositionSize := 1 / 2 }

/-- Flat state for the C9 witness. -/
def c9State : EngineState :=
  { position := none, trades := [], equity := 1000, equityCurve := [], tradeIdCounter := 0 }

/-- Candle for the C9 witness. -/
def c9Candle : Candle := { timestamp := 1, opn := 100, high := 100, low := 100, close := 100 }

/-- C9 witness: a size-0 buy signal opens at the full cap 1000. -/
theorem c9_witness :
    ((openPosition c9Cfg c9State .long c9Candle { type := .buy, size := some 0 }).position).map
      Position.size = some 1000 := by
  have h := c9_falsy_size_opens_full_cap c9Cfg c9State .long c9Candle
    { type := .buy, size := some 0 } (Or.inr rfl)
  rw [h]
  norm_num [c9Cfg, c9State]

/-- C10.  A stop-loss level of exactly 0 is falsy, so checkExitConditions
never closes on the stop in either direction — the check reduces to the
take-profit test alone; symmetrically a take-profit of exactly 0 reduces
the check to the stop-loss test alone.  A 0 level behaves as unset. -/
theorem c10_zero_level_never_triggers (cfg : BacktestConfig) (st : EngineState)
    (pos : Position) (candle : Candle) (hp : st.position = some pos) :
    (pos.stopLoss = some 0 →
      checkExitConditions cfg st candle =
        (if (truthyOpt pos.takeProfit &&
            decide (if pos.direction = .long then candle.high ≥ pos.takeProfit.getD 0
                    else candle.low ≤ pos.takeProfit.getD 0)) = true then
          closePosition cfg st (pos.takeProfit.getD 0) candle.timestamp "Take profit hit"
        else st)) ∧
    (pos.takeProfit = some 0 →
      checkExitConditions cfg st candle =
        (if (truthyOpt pos.stopLoss &&
            decide (if pos.direction = .long then candle.low ≤ pos.stopLoss.getD 0
                    else candle.high ≥ pos.stopLoss.getD 0)) = true then
          closePosition cfg st (pos.stopLoss.getD 0) candle.timestamp "Stop loss hit"
        else st)) := by
  constructor
  · intro h0
    cases hd : pos.direction <;>
      simp [checkExitConditions, hp, hd, h0, truthyOpt]
  · intro h0
    cases hd : pos.direction <;>
      simp [checkExitConditions, hp, hd, h0, truthyOpt]

/-- Configuration for the C10 witness. -/
def c10Cfg : BacktestConfig :=
  { initialCapital := 1000, commission := 0, slippage := 0, leverage := 1
    maxPositionSize := 1 }

/-- Long position whose stop-loss is exactly 0 for the C10 witness. -/
def c10Pos : Position :=
  { id := "pos-1", direction := .long, entryTime := 0, entryPrice := 100, size := 100
    stopLoss := some 0 }

/-- State holding the C10 witness position. -/
def c10State : EngineState :=
  { position := some c10Pos, trades := [], equity := 1000, equityCurve := []
    tradeIdCounter := 1 }

/-- A candle whose low even reaches below 0 for the C10 witness. -/
def c10Candle : Candle := { timestamp := 5, opn := 95, high := 96, low := -1, close := 95 }

/-- C10 witness: with stop-loss 0 and the candle low at -1 (which satisfies
low less or equal stop), the check still leaves the state untouched. -/
theorem c10_witness : checkExitConditions c10Cfg c10State c10Candle = c10State := by
  have h := (c10_zero_level_never_triggers c10Cfg c10State c10Pos c10Candle rfl).1 rfl
  rw [h]
  norm_num [truthyOpt, c10Pos]

/-! Indicator sentinel lemmas. -/

lemma sma_getD (data : List ℚ) (period i : ℕ) (hi : i < data.length) :
    (sma data period).getD i none =
      if (i : ℤ) < (period : ℤ) - 1 then none
      else some (windowSum data i period / (period : ℚ)) := by
  simp [sma, List.getD_eq_getElem?_getD, List.getElem?_map, List.getElem?_range, hi]

lemma ema_getD (data : List ℚ) (period i : ℕ) (hi : i < data.length) :
    (ema data period).getD i none = some (emaVal data period i) := by
  simp [ema, List.getD_eq_getElem?_getD, List.getElem?_map, List.getElem?_range, hi]

/-- C4 (amended).  For every series and positive period, the SMA output has
the same length as the input, is the NaN sentinel exactly at the first
period - 1 positions, and is a defined value at every later position; the
EMA output, by contrast, is a defined (non-sentinel) value at every
position — including the positions before the window fills and for series
shorter than the period — because it falls back to the first datum and to
cumulative means instead of the sentinel. -/
theorem c4_indicator_sentinels (data : List ℚ) (period : ℕ) (hp : 1 ≤ period) :
    (sma data period).length = data.length ∧
    (ema data period).length = data.length ∧
    (∀ i, i < data.length → ((sma data period).getD i none = none ↔ i < period - 1)) ∧
    (∀ i, i < data.length → ((ema data period).getD i none).isSome = true) := by
  refine ⟨by simp [sma], by simp [ema], fun i hi => ?_, fun i hi => ?_⟩
  · rw [sma_getD data period i hi]
    by_cases hc : (i : ℤ) < (period : ℤ) - 1
    · simp only [if_pos hc, true_iff]
      omega
    · simp only [if_neg hc, reduceCtorEq, false_iff]
      omega
  · rw [ema_getD data period i hi]
    rfl

/-- C4 counterexample.  With period 2, index 0 lies before the window has
enough data (0 < period - 1), yet the EMA output there is the defined
value 1, not the sentinel; and for the one-element series with period 3
(shorter than the period) the single output is the defined value 5 rather
than the sentinel.  This refutes the claim that every period-P indicator
is the sentinel on the first P - 1 positions and all-sentinel on shorter
series. -/
theorem c4_counterexample :
    (ema [1, 2] 2).getD 0 none = some 1 ∧ (0 : ℕ) < 2 - 1 ∧
    (ema [5] 3).getD 0 none = some 5 ∧ ([5] : List ℚ).length < 3 := by
  refine ⟨?_, by norm_num, ?_, by norm_num⟩ <;>
    · rw [ema_getD _ _ _ (by norm_num)]
      norm_num [emaVal]

/-- Series for the C4 witness. -/
def c4WitData : List ℚ := [3, 5, 7, 9]

/-- C4 witness: the amended sentinel boundary evaluated for the series
[3, 5, 7, 9] with period 3: the SMA is the sentinel at index 1 (before the
window) and defined at index 2, and the EMA is defined at index 1. -/
theorem c4_witness :
    ((sma c4WitData 3).getD 1 none = none ↔ (1 : ℕ) < 3 - 1) ∧
    ((sma c4WitData 3).getD 2 none = none ↔ (2 : ℕ) < 3 - 1) ∧
    ((ema c4WitData 3).getD 1 none).isSome = true := by
  have h := c4_indicator_sentinels c4WitData 3 (by norm_num)
  exact ⟨h.2.2.1 1 (by norm_num [c4WitData]), h.2.2.1 2 (by norm_num [c4WitData]),
    h.2.2.2 1 (by norm_num [c4WitData])⟩

/-! Grid-search counting lemmas. -/

lemma gridVals_length (mx stp v : ℚ) :
    0 < stp → v ≤ mx → ((gridVals mx stp v).length : ℤ) = ⌊(mx - v) / stp⌋ + 1 := by
  induction v using gridVals.induct mx stp with
  | case1 v h ih =>
    intro h1 h2
    rw [gridVals, dif_pos h]
    have harg : (mx - (v + stp)) / stp = (mx - v) / stp - 1 := by
      field_simp
      ring
    have hfl : ⌊(mx - (v + stp)) / stp⌋ = ⌊(mx - v) / stp⌋ - 1 := by
      rw [harg]
      exact_mod_cast Int.floor_sub_int ((mx - v) / stp) 1
    by_cases hnext : v + stp ≤ mx
    · have htail := ih h1 hnext
      simp only [List.length_cons]
      push_cast
      rw [htail, hfl]
      ring
    · have hempty : gridVals mx stp (v + stp) = [] := by
        rw [gridVals, dif_neg]
        intro hc
        exact hnext hc.2
      have hzero : ⌊(mx - v) / stp⌋ = 0 := by
        have hlo : (0 : ℚ) ≤ (mx - v) / stp := div_nonneg (by linarith) (le_of_lt h1)
        have hhi : (mx - v) / stp < 1 := by
          rw [div_lt_one h1]
          linarith
        rw [Int.floor_eq_zero_iff]
        exact ⟨hlo, hhi⟩
      simp [hempty, hzero]
  | case2 v h =>
    intro h1 h2
    exact absurd ⟨h1, h2⟩ h

lemma sum_map_const_nat {α : Type} (l : List α) (c : ℕ) :
    (l.map (fun _ => c)).sum = l.length * c := by
  induction l with
  | nil => simp
  | cons a l ih => simp [ih, Nat.succ_mul, Nat.add_comm]

lemma genCombAux_length (base : Params) (ranges : List (String × ORange)) :
    ∀ cur, (genCombAux base ranges cur).length =
      (ranges.map (fun kr => (gridVals kr.2.max kr.2.step kr.2.min).length)).prod := by
  induction ranges with
  | nil => intro cur; simp [genCombAux]
  | cons kr rest ih =>
    intro cur
    obtain ⟨k, r⟩ := kr
    simp only [genCombAux, List.length_flatMap, List.map_cons, List.prod_cons,
      Function.comp_def]
    have hmap : (gridVals r.max r.step r.min).map
        (fun v => (genCombAux base rest ((k, roundMilli v) :: cur)).length) =
        (gridVals r.max r.step r.min).map
          (fun _ => (rest.map
            (fun kr => (gridVals kr.2.max kr.2.step kr.2.min).length)).prod) := by
      apply List.map_congr_left
      intro v _
      exact ih ((k, roundMilli v) :: cur)
    rw [hmap, sum_map_const_nat]

lemma getTotalCombinations_foldl (ranges : List (String × ORange)) :
    ∀ a : ℤ, ranges.foldl
        (fun total kr => total * (⌊(kr.2.max - kr.2.min) / kr.2.step⌋ + 1)) a =
      a * (ranges.map (fun kr => ⌊(kr.2.max - kr.2.min) / kr.2.step⌋ + 1)).prod := by
  induction ranges with
  | nil => intro a; simp
  | cons kr rest ih =>
    intro a
    simp only [List.foldl_cons, List.map_cons, List.prod_cons]
    rw [ih]
    ring

lemma optimizeEvaluations_length (engine0 : BacktestEngine) (candles : List Candle)
    (factory : Params → Strategy) (combos : List Params) :
    (optimizeEvaluations engine0 candles factory combos).length = combos.length := by
  suffices h : ∀ acc : List (Params × Except String BacktestResult) × BacktestEngine,
      ((combos.foldl (optStep candles factory) acc).1).length
        = acc.1.length + combos.length by
    simpa [optimizeEvaluations] using h ([], engine0)
  induction combos with
  | nil => intro acc; simp
  | cons p rest ih =>
    intro acc
    simp only [List.foldl_cons]
    rw [ih]
    cases hrun : acc.2.run candles (factory p) <;>
      simp [optStep, hrun, List.length_append]
    · omega
    · omega

/-- C5.  For parameter ranges with positive step and min at most max, the
grid search enumerates exactly the product over the ranges of
floor((max - min)/step) + 1 combinations — the same count
getTotalCombinations reports — and the optimize loop performs exactly one
engine backtest evaluation per combination. -/
theorem c5_grid_search_combination_count (ranges : List (String × ORange)) (base : Params)
    (engine0 : BacktestEngine) (candles : List Candle) (factory : Params → Strategy)
    (hr : ∀ kr ∈ ranges, 0 < kr.2.step ∧ kr.2.min ≤ kr.2.max) :
    ((generateCombinations ranges base).length : ℤ) = getTotalCombinations ranges ∧
    (optimizeEvaluations engine0 candles factory (generateCombinations ranges base)).length
      = (generateCombinations ranges base).length := by
  refine ⟨?_, optimizeEvaluations_length engine0 candles factory _⟩
  rw [generateCombinations, genCombAux_length base ranges []]
  rw [getTotalCombinations, getTotalCombinations_foldl ranges 1, one_mul]
  rw [Nat.cast_list_prod, List.map_map]
  apply congrArg List.prod
  apply List.map_congr_left
  intro kr hkr
  have h := gridVals_length kr.2.max kr.2.step kr.2.min (hr kr hkr).1 (hr kr hkr).2
  simpa using h

/-- Ranges for the C5 witness: 2 values for the first parameter and 3 for
the second. -/
def c5WitRanges : List (String × ORange) :=
  [("fast", { min := 1, max := 2, step := 1 }), ("slow", { min := 0, max := 1, step := 1 / 2 })]

/-- A constant strategy factory for the C5 witness. -/
def c5WitFactory (p : Params) : Strategy :=
  { name := "const", params := p, onCandle := fun _ _ _ => none }

/-- Configuration for the C5 witness. -/
def c5WitCfg : BacktestConfig :=
  { initialCapital := 1000, commission := 0, slippage := 0, leverage := 1
    maxPositionSize := 1 }

/-- C5 witness: the 2-by-3 grid gives exactly 6 combinations and 6
evaluations. -/
theorem c5_witness :
    ((generateCombinations c5WitRanges []).length : ℤ) = getTotalCombinations c5WitRanges ∧
    (optimizeEvaluations (mkEngine c5WitCfg) [] c5WitFactory
      (generateCombinations c5WitRanges [])).length
      = (generateCombinations c5WitRanges []).length ∧
    getTotalCombinations c5WitRanges = 6 := by
  have h := c5_grid_search_combination_count c5WitRanges [] (mkEngine c5WitCfg) [] c5WitFactory
    (by
      intro kr hkr
      simp only [c5WitRanges, List.mem_cons, List.mem_singleton] at hkr
      rcases hkr with rfl | rfl | h
      · constructor <;> norm_num
      · constructor <;> norm_num
      · simp at h)
  refine ⟨h.1, h.2, ?_⟩
  norm_num [getTotalCombinations, c5WitRanges]

/-! Walk-forward window lemmas. -/

lemma pairwiseB_eq_true_iff (p : α → α → Bool) (l : List α) :
    pairwiseB p l = true ↔ l.Pairwise (fun a b => p a b = true) := by
  induction l with
  | nil => simp [pairwiseB]
  | cons x xs ih =>
    simp [pairwiseB, List.all_eq_true, ih, List.pairwise_cons]

/-- C6.  The walk-forward windows satisfy the two policy invariants: every
anchored window has trainIndex.start = 0, and no two rolling windows'
candle-index ranges (train start through test end) overlap. -/
theorem c6_walk_forward_window_invariants (candles : List Candle) (numW : ℕ) (split : ℚ) :
    ((generateWindows candles
        { windowType := .anchored, trainSplit := split, numWindows := numW }).all
      (fun w => w.trainIdxStart == 0)) = true ∧
    pairwiseB windowRangesDisjointB
      (generateWindows candles
        { windowType := .rolling, trainSplit := split, numWindows := numW }) = true := by
  constructor
  · simp only [generateWindows]
    rw [List.all_eq_true]
    intro w hw
    simp only [List.mem_filterMap] at hw
    obtain ⟨i, _, hw⟩ := hw
    split at hw
    · exact absurd hw (by simp)
    · obtain rfl := Option.some.inj hw
      rfl
  · rw [pairwiseB_eq_true_iff]
    simp only [generateWindows]
    rw [List.pairwise_filterMap]
    refine List.Pairwise.imp ?_ (List.pairwise_lt_range numW)
    intro i j hij w1 hw1 w2 hw2
    simp only [Option.mem_def] at hw1 hw2
    split at hw1
    · exact absurd hw1 (by simp)
    split at hw2
    · exact absurd hw2 (by simp)
    obtain rfl := Option.some.inj hw1
    obtain rfl := Option.some.inj hw2
    simp only [windowRangesDisjointB, Bool.or_eq_true, decide_eq_true_eq]
    left
    have hws : (0 : ℤ) ≤ (candles.length : ℤ) / (numW : ℤ) :=
      Int.ediv_nonneg (by positivity) (by positivity)
    have hmul : ((i : ℤ) + 1) * ((candles.length : ℤ) / (numW : ℤ))
        ≤ (j : ℤ) * ((candles.length : ℤ) / (numW : ℤ)) := by
      apply mul_le_mul_of_nonneg_right _ hws
      exact_mod_cast hij
    have hmin : min ((i : ℤ) * ((candles.length : ℤ) / (numW : ℤ))
          + ⌊(((candles.length : ℤ) / (numW : ℤ) : ℤ) : ℚ) * split⌋ - 1 + 1
          + ((candles.length : ℤ) / (numW : ℤ)
            - ⌊(((candles.length : ℤ) / (numW : ℤ) : ℤ) : ℚ) * split⌋) - 1)
        ((candles.length : ℤ) - 1)
        ≤ (i : ℤ) * ((candles.length : ℤ) / (numW : ℤ))
          + ⌊(((candles.length : ℤ) / (numW : ℤ) : ℤ) : ℚ) * split⌋ - 1 + 1
          + ((candles.length : ℤ) / (numW : ℤ)
            - ⌊(((candles.length : ℤ) / (numW : ℤ) : ℤ) : ℚ) * split⌋) - 1 :=
      min_le_left _ _
    nlinarith [hmin, hmul]

/-! Profit factor lemmas. -/

lemma calculateMetricsCore_profitFactor (trades : List Trade) (curve : List EquityPoint)
    (init sd ed : ℚ) (h : completedOf trades ≠ []) :
    (calculateMetricsCore trades curve init sd ed).profitFactor = profitFactorOf trades := by
  simp only [calculateMetricsCore]
  rw [if_neg h]

lemma totalWins_nonneg (ts : List Trade) : 0 ≤ totalWins ts := by
  apply List.sum_nonneg
  intro x hx
  simp only [winningOf, List.mem_map, List.mem_filter] at hx
  obtain ⟨t, ⟨_, ht⟩, rfl⟩ := hx
  exact le_of_lt (of_decide_eq_true ht)

/-- C8 (amended).  For every trade list with at least one completed trade:
profitFactor is Infinity (modelled none) iff the summed losses are 0 and
the summed wins positive; profitFactor is 0 iff the summed wins are 0 —
which also happens when there are losses but no wins, not only when both
sums are 0; and whenever the summed losses are positive, profitFactor is
exactly the ratio of summed wins over the absolute summed losses. -/
theorem c8_profit_factor_cases (trades : List Trade) (curve : List EquityPoint)
    (init sd ed : ℚ) (h : completedOf trades ≠ []) :
    ((calculateMetricsCore trades curve init sd ed).profitFactor = none ↔
      totalLosses trades = 0 ∧ 0 < totalWins trades) ∧
    ((calculateMetricsCore trades curve init sd ed).profitFactor = some 0 ↔
      totalWins trades = 0) ∧
    (0 < totalLosses trades →
      (calculateMetricsCore trades curve init sd ed).profitFactor
        = some (totalWins trades / totalLosses trades)) := by
  have hpf := calculateMetricsCore_profitFactor trades curve init sd ed h
  rw [hpf]
  have hL : 0 ≤ totalLosses trades := abs_nonneg _
  have hW : 0 ≤ totalWins trades := totalWins_nonneg trades
  unfold profitFactorOf
  split_ifs with h1 h2
  · refine ⟨by simp [h1.ne'], ?_, fun _ => rfl⟩
    simp [div_eq_zero_iff, h1.ne']
  · have hL0 : totalLosses trades = 0 := le_antisymm (not_lt.mp h1) hL
    exact ⟨by simp [hL0, h2], by simp [h2.ne'], fun hc => absurd hc h1⟩
  · have hW0 : totalWins trades = 0 := le_antisymm (not_lt.mp h2) hW
    exact ⟨by simp [hW0], by simp [hW0], fun hc => absurd hc h1⟩

/-- One losing trade for the C8 counterexample. -/
def c8CexTrades : List Trade :=
  [{ id := "t1", entryTime := 0, exitTime := some 1, entryPrice := 100, exitPrice := some 90
     direction := .long, size := 1, pnl := some (-10), pnlPercent := some (-1)
     commission := 0 }]

/-- C8 counterexample.  A single losing trade gives profitFactor 0 while
the summed losses are 10, not 0: profitFactor = 0 does not imply both sums
are 0, refuting the claim's second iff. -/
theorem c8_counterexample :
    (calculateMetricsCore c8CexTrades [] 1000 0 1).profitFactor = some 0 ∧
    totalLosses c8CexTrades ≠ 0 := by
  constructor
  · rw [calculateMetricsCore_profitFactor _ _ _ _ _
      (by norm_num [completedOf, c8CexTrades])]
    norm_num [profitFactorOf, totalWins, totalLosses, winningOf, losingOf, completedOf, pnlD,
      c8CexTrades]
  · norm_num [totalLosses, losingOf, completedOf, pnlD, c8CexTrades]

/-- A winning and a losing trade for the C8 witness. -/
def c8WitTrades : List Trade :=
  [{ id := "t1", entryTime := 0, exitTime := some 1, entryPrice := 100, exitPrice := some 110
     direction := .long, size := 1, pnl := some 10, pnlPercent := some 1, commission := 0 },
   { id := "t2", entryTime := 1, exitTime := some 2, entryPrice := 110, exitPrice := some 105
     direction := .long, size := 1, pnl := some (-5), pnlPercent := some (-1/2)
     commission := 0 }]

/-- C8 witness: with one 10-unit win and one 5-unit loss the profit factor
is the ratio of the sums, 10 / 5 = 2. -/
theorem c8_witness :
    (calculateMetricsCore c8WitTrades [] 1000 0 2).profitFactor
      = some (totalWins c8WitTrades / totalLosses c8WitTrades) ∧
    totalWins c8WitTrades / totalLosses c8WitTrades = 2 := by
  constructor
  · exact (c8_profit_factor_cases c8WitTrades [] 1000 0 2
      (by simp [completedOf, c8WitTrades])).2.2
      (by norm_num [totalLosses, losingOf, completedOf, pnlD, c8WitTrades])
  · norm_num [totalWins, totalLosses, winningOf, losingOf, completedOf, pnlD, c8WitTrades]

/-! Fisher-Yates permutation lemmas. -/

lemma cons_set_perm {α : Type} (a : α) (t : List α) (m : ℕ) (hm : m < t.length) :
    (t.get ⟨m, hm⟩ :: t.set m a).Perm (a :: t) := by
  have ht : t = t.take m ++ t.get ⟨m, hm⟩ :: t.drop (m + 1) := by
    rw [← List.drop_eq_get_cons hm, List.take_append_drop]
  rw [List.set_eq_take_cons_drop a hm]
  have h1 : (t.get ⟨m, hm⟩ :: (t.take m ++ a :: t.drop (m + 1))).Perm
      (t.get ⟨m, hm⟩ :: a :: (t.take m ++ t.drop (m + 1))) := (List.perm_middle).cons _
  have h2 : (t.get ⟨m, hm⟩ :: a :: (t.take m ++ t.drop (m + 1))).Perm
      (a :: t.get ⟨m, hm⟩ :: (t.take m ++ t.drop (m + 1))) := List.Perm.swap a _ _
  have h3 : (a :: t.get ⟨m, hm⟩ :: (t.take m ++ t.drop (m + 1))).Perm
      (a :: (t.take m ++ t.get ⟨m, hm⟩ :: t.drop (m + 1))) := ((List.perm_middle).symm).cons _
  have h4 := (h1.trans h2).trans h3
  rw [← ht] at h4
  exact h4

lemma set_set_get_perm {α : Type} (l : List α) :
    ∀ (i j : ℕ) (hi : i < l.length) (hj : j < l.length),
      ((l.set i (l.get ⟨j, hj⟩)).set j (l.get ⟨i, hi⟩)).Perm l := by
  induction l with
  | nil => intro i j hi _; simp at hi
  | cons a t ih =>
    intro i j hi hj
    cases i with
    | zero =>
      cases j with
      | zero => simp
      | succ m =>
        have hm : m < t.length := by simpa using hj
        simpa using cons_set_perm a t m hm
    | succ n =>
      cases j with
      | zero =>
        have hn : n < t.length := by simpa using hi
        simpa using cons_set_perm a t n hn
      | succ m =>
        have hn : n < t.length := by simpa using hi
        have hm : m < t.length := by simpa using hj
        simpa using (ih n m hn hm).cons a

lemma swapL_perm {α : Type} (l : List α) (i j : ℕ) : (swapL l i j).Perm l := by
  unfold swapL
  split
  · next h => exact set_set_get_perm l i j h.1 h.2
  · exact List.Perm.refl l

lemma fyAux_perm {α : Type} (r : ℕ → ℕ) : ∀ (n : ℕ) (l : List α), (fyAux r n l).Perm l := by
  intro n
  induction n with
  | zero => intro l; exact List.Perm.refl l
  | succ i ih =>
    intro l
    exact (ih _).trans (swapL_perm l (i + 1) (r (i + 1) % (i + 2)))

lemma shuffleTrades_perm {α : Type} (r : ℕ → ℕ) (l : List α) :
    (shuffleTrades r l).Perm l := fyAux_perm r (l.length - 1) l

lemma sumPnl_perm {l1 l2 : List Trade} (h : l1.Perm l2) : sumPnl l1 = sumPnl l2 :=
  (h.map pnlD).sum_eq

lemma simStep_equity (cfg : MonteCarloConfig) (acc : SimAcc) (t : Trade) :
    (simStep cfg acc t).equity = acc.equity + pnlD t := by
  cases hp : t.pnl <;> simp [simStep, hp, pnlD]

lemma foldl_simStep_equity (cfg : MonteCarloConfig) (trades : List Trade) :
    ∀ acc : SimAcc, (trades.foldl (simStep cfg) acc).equity = acc.equity + sumPnl trades := by
  induction trades with
  | nil => intro acc; simp [sumPnl]
  | cons t ts ih =>
    intro acc
    simp only [List.foldl_cons]
    rw [ih, simStep_equity]
    simp only [sumPnl, List.map_cons, List.sum_cons]
    ring

lemma simulate_shuffle_finalEquity (r : ℕ → ℕ) (mcfg : MonteCarloConfig) (ts : List Trade) :
    (simulateEquityCurve mcfg (shuffleTrades r ts)).finalEquity
      = mcfg.initialCapital + sumPnl ts := by
  simp only [simulateEquityCurve]
  rw [foldl_simStep_equity, sumPnl_perm (shuffleTrades_perm r ts)]

lemma simulate_shuffle_totalReturn (r : ℕ → ℕ) (mcfg : MonteCarloConfig) (ts : List Trade) :
    (simulateEquityCurve mcfg (shuffleTrades r ts)).totalReturn
      = sumPnl ts / mcfg.initialCapital * 100 := by
  simp only [simulateEquityCurve]
  rw [foldl_simStep_equity, sumPnl_perm (shuffleTrades_perm r ts)]
  ring_nf

lemma sumPnl_completedOf (ts : List Trade) : sumPnl (completedOf ts) = sumPnl ts := by
  induction ts with
  | nil => rfl
  | cons t ts ih =>
    cases hp : t.pnl with
    | none =>
      have hfc : completedOf (t :: ts) = completedOf ts := by
        simp [completedOf, List.filter_cons, hp]
      rw [hfc, ih]
      simp [sumPnl, pnlD, hp]
    | some p =>
      have hfc : completedOf (t :: ts) = t :: completedOf ts := by
        simp [completedOf, List.filter_cons, hp]
      rw [hfc]
      simp only [sumPnl, List.map_cons, List.sum_cons]
      rw [show (List.map pnlD (completedOf ts)).sum = (List.map pnlD ts).sum from ih]

lemma metrics_totalReturnPercent (trades : List Trade) (curve : List EquityPoint)
    (init sd ed : ℚ) :
    (calculateMetricsCore trades curve init sd ed).totalReturnPercent
      = if completedOf trades = [] then 0
        else (finalEquityOf curve init - init) / init * 100 := by
  by_cases h : completedOf trades = []
  · simp only [calculateMetricsCore]
    rw [if_pos h, if_pos h]
    rfl
  · simp only [calculateMetricsCore]
    rw [if_neg h, if_neg h]

/-- C7 (amended).  The Monte Carlo shuffle is a true Fisher-Yates
permutation of its input for every random oracle, so the summed pnl is
preserved: a single simulated equity replay ends at exactly initialCapital
plus the summed pnl, and its totalReturn percentage equals
sum-pnl / initialCapital x 100; this S = 1 totalReturn reproduces the
original backtest's totalReturnPercent whenever the Monte Carlo capital
matches the backtest capital and the backtest ran with zero commission and
slippage (it can differ otherwise — see the counterexample). -/
theorem c7_shuffle_permutation_totalReturn (r : ℕ → ℕ) (ts : List Trade)
    (mcfg : MonteCarloConfig) (e : BacktestEngine) (candles : List Candle)
    (strat : Strategy) (res : BacktestResult) (e2 : BacktestEngine) :
    (shuffleTrades r ts).Perm ts ∧
    (simulateEquityCurve mcfg (shuffleTrades r ts)).finalEquity
      = mcfg.initialCapital + sumPnl ts ∧
    (simulateEquityCurve mcfg (shuffleTrades r ts)).totalReturn
      = sumPnl ts / mcfg.initialCapital * 100 ∧
    (e.run candles strat = .ok (res, e2) → e.config.commission = 0 →
      e.config.slippage = 0 → mcfg.initialCapital = e.config.initialCapital →
      (simulateEquityCurve mcfg (shuffleTrades r (completedOf res.trades))).totalReturn
        = res.metrics.totalReturnPercent) := by
  refine ⟨shuffleTrades_perm r ts, simulate_shuffle_finalEquity r mcfg ts,
    simulate_shuffle_totalReturn r mcfg ts, ?_⟩
  intro hok hc hs hinit
  rw [simulate_shuffle_totalReturn, sumPnl_completedOf]
  obtain ⟨hne, hres, _⟩ := run_ok_elim hok
  subst hres
  simp only [resultOf]
  rw [metrics_totalReturnPercent]
  split_ifs with hemp
  · rw [show sumPnl (finalState e.config strat candles).trades = 0 from by
      rw [← sumPnl_completedOf, hemp]; rfl]
    simp
  · rw [hinit, finalState_friction_free e.config strat candles hne hc hs]

/-- Configuration with nonzero commission for the C7 counterexample. -/
def c7CexCfg : BacktestConfig :=
  { initialCapital := 1000, commission := 1 / 100, slippage := 0, leverage := 1
    maxPositionSize := 1 }

/-- One flat candle for the C7 counterexample. -/
def c7CexCandles : List Candle :=
  [{ timestamp := 1, opn := 100, high := 100, low := 100, close := 100 }]

/-- Buy-and-hold strategy for the C7 counterexample. -/
def c7CexStrat : Strategy :=
  { name := "always-buy", params := []
    onCandle := fun _ _ pos =>
      match pos with
      | none => some { type := .buy }
      | some _ => none }

/-- Result of the C7 counterexample backtest. -/
def c7CexRes : BacktestResult :=
  match BacktestEngine.run (mkEngine c7CexCfg) c7CexCandles c7CexStrat with
  | .ok p => p.1
  | .error _ => resultOf c7CexCfg c7CexStrat c7CexCandles

/-- Monte Carlo configuration matching the backtest capital for the C7
counterexample. -/
def c7CexMcCfg : MonteCarloConfig :=
  { simulations := 1, initialCapital := 1000, ruinThreshold := 1 / 2 }

/-- C7 counterexample.  On a 1-percent-commission backtest whose position
is force-closed at end of data, the single-simulation Monte Carlo replay
of the realized trades returns -2 percent while the original backtest
metrics report totalReturnPercent 0 (and totalReturn 0 dollars): the S = 1
permutation does not reproduce the original totalReturn exactly, refuting
the claim as stated. -/
theorem c7_counterexample :
    (simulateEquityCurve c7CexMcCfg
      (shuffleTrades (fun _ => 0) (completedOf c7CexRes.trades))).totalReturn = -2 ∧
    c7CexRes.metrics.totalReturnPercent = 0 ∧
    c7CexRes.metrics.totalReturn = 0 ∧
    (-2 : ℚ) ≠ 0 := by
  refine ⟨?_, ?_, ?_, by norm_num⟩ <;>
    norm_num [simulateEquityCurve, simStep, shuffleTrades, fyAux, completedOf, c7CexRes,
      BacktestEngine.run, runAux, resultOf, mutOf, finalState, loopState, initialState,
      stepCandle, checkExitConditions, executeSignal, openPosition, closePosition, mkCloseTrade,
      updateEquityCurve, unrealizedPnl, truthyOpt, sumPnl, pnlD, finalEquityOf, lastCandleOf,
      headCandleOf, c7CexCfg, c7CexCandles, c7CexStrat, c7CexMcCfg, mkEngine, List.enum,
      List.enumFrom, Except.map, calculateMetricsCore, emptyMetrics, winningOf, losingOf,
      totalWins, totalLosses, profitFactorOf, consecutiveOf, drawdownOf, swapL]

/-- Frictionless configuration for the C7 witness. -/
def c7WitCfg : BacktestConfig :=
  { initialCapital := 1000, commission := 0, slippage := 0, leverage := 1
    maxPositionSize := 1 }

/-- Two rising candles for the C7 witness. -/
def c7WitCandles : List Candle :=
  [{ timestamp := 1, opn := 100, high := 100, low := 100, close := 100 },
   { timestamp := 2, opn := 110, high := 110, low := 110, close := 110 }]

/-- Buy-and-hold strategy for the C7 witness. -/
def c7WitStrat : Strategy :=
  { name := "always-buy", params := []
    onCandle := fun _ _ pos =>
      match pos with
      | none => some { type := .buy }
      | some _ => none }

/-- Monte Carlo configuration for the C7 witness. -/
def c7WitMcCfg : MonteCarloConfig :=
  { simulations := 1, initialCapital := 1000, ruinThreshold := 1 / 2 }

/-- Result of the C7 witness backtest. -/
def c7WitRes : BacktestResult :=
  match BacktestEngine.run (mkEngine c7WitCfg) c7WitCandles c7WitStrat with
  | .ok p => p.1
  | .error _ => resultOf c7WitCfg c7WitStrat c7WitCandles

/-- Post-run engine of the C7 witness backtest. -/
def c7WitEng : BacktestEngine :=
  match BacktestEngine.run (mkEngine c7WitCfg) c7WitCandles c7WitStrat with
  | .ok p => p.2
  | .error _ => mkEngine c7WitCfg

/-- C7 witness: on a concrete frictionless backtest the S = 1 Monte Carlo
replay reproduces the backtest totalReturnPercent exactly. -/
theorem c7_witness :
    (simulateEquityCurve c7WitMcCfg
      (shuffleTrades (fun _ => 0) (completedOf c7WitRes.trades))).totalReturn
      = c7WitRes.metrics.totalReturnPercent := by
  have h := c7_shuffle_permutation_totalReturn (fun _ => 0) [] c7WitMcCfg
    (mkEngine c7WitCfg) c7WitCandles c7WitStrat c7WitRes c7WitEng
  exact h.2.2.2 rfl rfl rfl rfl

end BT
